import Mathlib

/-!
Verification of the temporal-agent-mcp scheduling engine.

This file gives a shallow embedding, in Lean 4, of the parts of the
repository that the specification claims talk about:

* the payload sanitizer, SSRF IP blocklist, cron-expression validator and
  HMAC sign/verify routines of the security utility module;
* the time evaluator around the external cron-parser dependency;
* the durable task store (the tasks table of the SQL schema) together with
  the query layer operations lockTask, unlockTask, recordExecution,
  updateStatus, create and the stale-lock cleanup of the scheduler worker;
* the tool handlers schedule_task, schedule_recurring, cancel_task,
  resume_task and the tool registry dispatcher executeTool;
* the worker step executeTask.

JavaScript strings are modelled as Lean String (or their List Char data),
machine timestamps as Int milliseconds, SQL NULL as Option, and the JSON
payload values as an inductive Json type.  External effects (DNS lookups,
the ms and cron-parser packages, Date parsing, uuid generation, the HMAC
primitive of the crypto module) are parameters of the embedded functions,
so every theorem quantifies over their behaviour.
-/

set_option autoImplicit false

namespace Temporal

/-! ## JSON values and payload sanitization (utils/security.js) -/

/-- JSON-shaped values, the model of the JavaScript payload objects. -/
inductive Json where
  | null
  | bool (b : Bool)
  | num (n : Int)
  | str (s : String)
  | arr (xs : List Json)
  | obj (fields : List (String × Json))

/-- JSON string escaping used by JSON.stringify for the characters that
need it in the payloads we model. -/
def escapeChar (c : Char) : String :=
  if c = '"' then "\\\""
  else if c = '\\' then "\\\\"
  else if c = '\n' then "\\n"
  else if c = '\t' then "\\t"
  else if c = '\r' then "\\r"
  else String.mk [c]

/-- Escape a JSON string body. -/
def escapeStr (s : String) : String :=
  String.join (s.data.map escapeChar)

mutual

/-- JSON.stringify on the modelled values. -/
def stringify : Json → String
  | .null => "null"
  | .bool true => "true"
  | .bool false => "false"
  | .num n => toString n
  | .str s => "\"" ++ escapeStr s ++ "\""
  | .arr xs => "[" ++ stringifyList xs ++ "]"
  | .obj fs => "\x7b" ++ stringifyFields fs ++ "\x7d"

/-- Comma-separated serialization of an array body. -/
def stringifyList : List Json → String
  | [] => ""
  | [x] => stringify x
  | x :: xs => stringify x ++ "," ++ stringifyList xs

/-- Comma-separated serialization of an object body. -/
def stringifyFields : List (String × Json) → String
  | [] => ""
  | [(k, v)] => "\"" ++ escapeStr k ++ "\":" ++ stringify v
  | (k, v) :: fs => "\"" ++ escapeStr k ++ "\":" ++ stringify v ++ "," ++ stringifyFields fs

end

/-- The keys the sanitizing reviver drops (prototype-pollution guards). -/
def dangerousKey (k : String) : Bool :=
  k == "__proto__" || k == "constructor" || k == "prototype"

mutual

/-- The effect of re-parsing serialized JSON with the reviver that skips
dangerous keys: those object entries are removed at every depth. -/
def sanitizeJson : Json → Json
  | .null => .null
  | .bool b => .bool b
  | .num n => .num n
  | .str s => .str s
  | .arr xs => .arr (sanitizeList xs)
  | .obj fs => .obj (sanitizeFields fs)

/-- Sanitize every element of an array. -/
def sanitizeList : List Json → List Json
  | [] => []
  | x :: xs => sanitizeJson x :: sanitizeList xs

/-- Drop dangerous keys and sanitize the kept values. -/
def sanitizeFields : List (String × Json) → List (String × Json)
  | [] => []
  | (k, v) :: fs =>
    if dangerousKey k then sanitizeFields fs
    else (k, sanitizeJson v) :: sanitizeFields fs

end

/-- Result shape of sanitizePayload. -/
structure SanitizeResult where
  valid : Bool
  sanitized : Option Json
  error : Option String

/-- sanitizePayload from utils/security.js: a missing or null payload is
replaced by an empty object; otherwise the serialization is measured
against the byte cap and the value is re-parsed with the dangerous-key
reviver. -/
def sanitizePayload (maxSize : Nat) (payload : Option Json) : SanitizeResult :=
  match payload with
  | none => ⟨true, some (.obj []), none⟩
  | some p =>
    let json := stringify p
    if json.length > maxSize then
      ⟨false, none, some "Payload exceeds maximum size"⟩
    else
      ⟨true, some (sanitizeJson p), none⟩

/-! ## Character helpers shared by the string-level embeddings -/

/-- Numeric-range test on code points. -/
def betweenChar (lo c hi : Char) : Bool :=
  lo.toNat ≤ c.toNat && c.toNat ≤ hi.toNat

/-- ASCII digit test (the regex class d). -/
def isDigitC (c : Char) : Bool :=
  betweenChar '0' c '9'

/-- Hexadecimal digit test under the case-insensitive regex flag. -/
def isHexCI (c : Char) : Bool :=
  isDigitC c || betweenChar 'a' c.toLower 'f'

/-- Case-sensitive literal prefix match (regex anchored at the start). -/
def startsWithP : List Char → List Char → Bool
  | [], _ => true
  | _ :: _, [] => false
  | p :: ps, c :: cs => p == c && startsWithP ps cs

/-- Case-insensitive literal prefix match; the pattern is given in
lowercase, mirroring the regex i flag. -/
def startsWithCI : List Char → List Char → Bool
  | [], _ => true
  | _ :: _, [] => false
  | p :: ps, c :: cs => c.toLower == p && startsWithCI ps cs

/-! ## isBlockedIP (utils/security.js) -/

/-- The pattern 172.(1[6-9]|2d|3[01]). from BLOCKED_IPV4_PATTERNS. -/
def block172 : List Char → Bool
  | '1' :: '7' :: '2' :: '.' :: a :: b :: '.' :: _ =>
    (a == '1' && betweenChar '6' b '9')
      || (a == '2' && isDigitC b)
      || (a == '3' && (b == '0' || b == '1'))
  | _ => false

/-- The second-octet alternation of the CGNAT pattern. -/
def block100Octet : List Char → Bool
  | '6' :: b :: '.' :: _ => betweenChar '4' b '9'
  | '7' :: b :: '.' :: _ => isDigitC b
  | '8' :: b :: '.' :: _ => isDigitC b
  | '9' :: b :: '.' :: _ => isDigitC b
  | '1' :: b :: c :: '.' :: _ => betweenChar '0' b '2' && isDigitC c
  | _ => false

/-- The carrier-grade NAT pattern 100.(6[4-9]|[7-9]d|1[0-2]d). . -/
def block100 : List Char → Bool
  | '1' :: '0' :: '0' :: '.' :: rest => block100Octet rest
  | _ => false

/-- The disjunction of the fourteen BLOCKED_IPV4_PATTERNS regexes. -/
def ipv4Blocked (l : List Char) : Bool :=
  startsWithP ['1', '2', '7', '.'] l
    || startsWithP ['1', '0', '.'] l
    || block172 l
    || startsWithP ['1', '9', '2', '.', '1', '6', '8', '.'] l
    || startsWithP ['1', '6', '9', '.', '2', '5', '4', '.'] l
    || startsWithP ['0', '.'] l
    || block100 l
    || startsWithP ['1', '9', '2', '.', '0', '.', '0', '.'] l
    || startsWithP ['1', '9', '2', '.', '0', '.', '2', '.'] l
    || startsWithP ['1', '9', '8', '.', '5', '1', '.', '1', '0', '0', '.'] l
    || startsWithP ['2', '0', '3', '.', '0', '.', '1', '1', '3', '.'] l
    || startsWithP ['2', '2', '4', '.'] l
    || startsWithP ['2', '4', '0', '.'] l
    || l == ['2', '5', '5', '.', '2', '5', '5', '.', '2', '5', '5', '.', '2', '5', '5']

/-- Peel a case-insensitive ::ffff: prefix, returning the remainder. -/
def mappedPrefix : List Char → Option (List Char)
  | ':' :: ':' :: a :: b :: c :: d :: ':' :: rest =>
    if a.toLower == 'f' && b.toLower == 'f' && c.toLower == 'f' && d.toLower == 'f' then
      some rest
    else none
  | _ => none

/-- One group of the anchored dotted-quad regex d+.d+.d+.d+ ; the Nat
counts the remaining dot-separated groups. -/
def isDottedQuadAux : Nat → List Char → Bool
  | k, l =>
    let ds := l.takeWhile isDigitC
    let rest := l.dropWhile isDigitC
    !ds.isEmpty &&
      (match k with
       | 0 => rest.isEmpty
       | k + 1 =>
         match rest with
         | '.' :: r2 => isDottedQuadAux k r2
         | _ => false)

/-- The full anchored dotted-quad regex used by the IPv4-mapped unwrap. -/
def isDottedQuad (l : List Char) : Bool :=
  isDottedQuadAux 3 l

/-- Test the part after a ::ffff: prefix against an IPv4-side pattern;
used for the six IPv4-mapped entries of BLOCKED_IPV6_PATTERNS. -/
def mappedTest (p : List Char → Bool) (l : List Char) : Bool :=
  match mappedPrefix l with
  | some rest => p rest
  | none => false

/-- The unique-local pattern fd[0-9a-f]{2}: . -/
def blockFD : List Char → Bool
  | a :: b :: c :: d :: ':' :: _ =>
    a.toLower == 'f' && b.toLower == 'd' && isHexCI c && isHexCI d
  | _ => false

/-- The multicast pattern ff[0-9a-f]{2}: . -/
def blockFF : List Char → Bool
  | a :: b :: c :: d :: ':' :: _ =>
    a.toLower == 'f' && b.toLower == 'f' && isHexCI c && isHexCI d
  | _ => false

/-- The disjunction of the BLOCKED_IPV6_PATTERNS regexes (all carry the
case-insensitive flag; letters in the patterns are lowercase). -/
def ipv6Blocked (l : List Char) : Bool :=
  l == [':', ':', '1']
    || l == [':', ':']
    || mappedTest (startsWithP ['1', '2', '7', '.']) l
    || mappedTest (startsWithP ['1', '0', '.']) l
    || mappedTest block172 l
    || mappedTest (startsWithP ['1', '9', '2', '.', '1', '6', '8', '.']) l
    || mappedTest (startsWithP ['1', '6', '9', '.', '2', '5', '4', '.']) l
    || mappedTest (startsWithP ['0', '.']) l
    || startsWithCI ['f', 'e', '8', '0', ':'] l
    || startsWithCI ['f', 'c', '0', '0', ':'] l
    || blockFD l
    || blockFF l
    || startsWithCI ['2', '0', '0', '1', ':', 'd', 'b', '8', ':'] l
    || startsWithCI ['1', '0', '0', ':', ':'] l
    || startsWithCI ['6', '4', ':', 'f', 'f', '9', 'b', ':'] l

/-- isBlockedIP from utils/security.js on the character data of the
address string: a falsy (empty) input is blocked, then the IPv4
patterns, the IPv6 patterns, and finally the anchored ::ffff: unwrap
re-tested against the IPv4 patterns. -/
def isBlockedIPChars (l : List Char) : Bool :=
  if l.isEmpty then true
  else
    ipv4Blocked l
      || ipv6Blocked l
      || (match mappedPrefix l with
          | some q => isDottedQuad q && ipv4Blocked q
          | none => false)

/-- isBlockedIP on a JavaScript string. -/
def isBlockedIP (ip : String) : Bool :=
  isBlockedIPChars ip.data

/-! ## validateCronExpression (utils/security.js) -/

/-- The JavaScript regex whitespace class s: tab, line feed, vertical
tab, form feed, carriage return, space, and the Unicode space
separators. -/
def isJsSpace (c : Char) : Bool :=
  let n := c.toNat
  n == 0x9 || n == 0xa || n == 0xb || n == 0xc || n == 0xd || n == 0x20
    || n == 0xa0 || n == 0x1680 || (0x2000 ≤ n && n ≤ 0x200a)
    || n == 0x2028 || n == 0x2029 || n == 0x202f || n == 0x205f
    || n == 0x3000 || n == 0xfeff

/-- Membership in the character class [0-9s,-*/LW#?] of the cron
whitelist regex. -/
def allowedCronChar (c : Char) : Bool :=
  isDigitC c || isJsSpace c || c == ',' || c == '-' || c == '*' || c == '/'
    || c == 'L' || c == 'W' || c == '#' || c == '?'

/-- String.prototype.trim: strip whitespace from both ends. -/
def trimChars (l : List Char) : List Char :=
  ((l.dropWhile isJsSpace).reverse.dropWhile isJsSpace).reverse

/-- Worker for splitting on runs of whitespace. -/
def splitWsAux : List Char → List Char → List (List Char)
  | [], acc => if acc.isEmpty then [] else [acc.reverse]
  | c :: cs, acc =>
    if isJsSpace c then
      if acc.isEmpty then splitWsAux cs [] else acc.reverse :: splitWsAux cs []
    else splitWsAux cs (c :: acc)

/-- split(regex of one-or-more whitespace) on an already-trimmed string. -/
def splitWs (l : List Char) : List (List Char) :=
  splitWsAux l []

/-- Worker for splitting at commas, keeping empty pieces as split does. -/
def splitCommaAux : List Char → List Char → List (List Char)
  | [], acc => [acc.reverse]
  | ',' :: cs, acc => acc.reverse :: splitCommaAux cs []
  | c :: cs, acc => splitCommaAux cs (c :: acc)

/-- split at the comma separator. -/
def splitComma (l : List Char) : List (List Char) :=
  splitCommaAux l []

/-- Result shape of validateCronExpression. -/
structure CronResult where
  valid : Bool
  error : Option String
  deriving Repr, DecidableEq

/-- validateCronExpression from utils/security.js: required nonempty
string, character whitelist, exactly five whitespace-separated parts,
each part at most 20 characters, minute field neither star nor star/1,
and at most 30 comma-separated minute values. -/
def validateCronExpression (s : String) : CronResult :=
  let l := s.data
  if l.isEmpty then ⟨false, some "Cron expression is required"⟩
  else if !(l.all allowedCronChar) then
    ⟨false, some "Cron expression contains invalid characters"⟩
  else
    let parts := splitWs (trimChars l)
    if parts.length ≠ 5 then
      ⟨false, some "Cron expression must have exactly 5 parts"⟩
    else if parts.any (fun p => p.length > 20) then
      ⟨false, some "Cron expression part too long"⟩
    else
      match parts with
      | minute :: _ =>
        if minute == ['*'] || minute == ['*', '/', '1'] then
          ⟨false, some "Cron cannot run more frequently than once per minute"⟩
        else if minute.contains ',' && (splitComma minute).length > 30 then
          ⟨false, some "Too many minute values specified"⟩
        else ⟨true, none⟩
      | [] => ⟨false, some "Cron expression must have exactly 5 parts"⟩

/-! ## HMAC sign and verify (utils/security.js)

The HMAC-SHA256 primitive of the crypto module is external; the embedded
functions take it as a parameter hmac from message strings to hex
strings, with the server secret already applied.  Date parsing of the
timestamp is likewise a parameter, returning none where the JavaScript
Date would be invalid. -/

/-- generateHmacSignature: sign the timestamp-dot-payload concatenation,
or the payload alone when the timestamp is falsy (empty). -/
def generateHmacSignature (hmac : String → String) (payload timestamp : String) : String :=
  let signedContent := if timestamp ≠ "" then timestamp ++ "." ++ payload else payload
  hmac signedContent

/-- Value of one hexadecimal digit, as Buffer.from with hex encoding
reads it. -/
def hexVal (c : Char) : Option Nat :=
  if isDigitC c then some (c.toNat - '0'.toNat)
  else if betweenChar 'a' c 'f' then some (c.toNat - 'a'.toNat + 10)
  else if betweenChar 'A' c 'F' then some (c.toNat - 'A'.toNat + 10)
  else none

/-- Buffer.from(str, hex): decode hexadecimal pairs from the start,
stopping at the first invalid pair and dropping a trailing lone digit. -/
def hexDecode : List Char → List Nat
  | c1 :: c2 :: rest =>
    match hexVal c1, hexVal c2 with
    | some hi, some lo => (16 * hi + lo) :: hexDecode rest
    | _, _ => []
  | _ => []

/-- Result shape of verifyHmacSignature. -/
structure VerifyResult where
  valid : Bool
  error : Option String
  deriving Repr, DecidableEq

/-- The default maximum signature age: five minutes. -/
def defaultMaxAgeMs : Int := 5 * 60 * 1000

/-- verifyHmacSignature from utils/security.js.  When the timestamp is
truthy (nonempty) it must parse and lie within maxAgeMs of now;
afterwards the expected signature is recomputed and compared through
crypto.timingSafeEqual on the hex-decoded buffers, whose
length-mismatch exception is caught and reported as failure. -/
def verifyHmacSignature (hmac : String → String) (parseTs : String → Option Int)
    (nowMs : Int) (payload signature timestamp : String) (maxAgeMs : Int) : VerifyResult :=
  let timestampCheck : Option VerifyResult :=
    if timestamp ≠ "" then
      match parseTs timestamp with
      | none => some ⟨false, some "Invalid timestamp format"⟩
      | some tsMs =>
        if |nowMs - tsMs| > maxAgeMs then
          some ⟨false, some "Timestamp too old or too far in future"⟩
        else none
    else none
  match timestampCheck with
  | some r => r
  | none =>
    let expected := generateHmacSignature hmac payload timestamp
    let ea := hexDecode expected.data
    let sa := hexDecode signature.data
    if ea.length ≠ sa.length then ⟨false, some "Signature verification failed"⟩
    else ⟨ea == sa, none⟩

/-! ## The time evaluator next_after (utils/time.js)

Modelled from the spec: getNextCronRun delegates parsing and iteration to
the external cron-parser package, whose source is not part of this
repository; following spec section 4.1, a five-field cron expression is
modelled as five lists of entries (wildcard, single value, range, step),
local calendar time in an IANA timezone is abstracted as a function from
instants (minutes) to broken-down local times, and next_after searches
for the first matching instant strictly after t, failing beyond one
year. -/

/-- One entry of a cron field: wildcard, value, range a-b, step on the
wildcard, or step on a range. -/
inductive CronEntry where
  | all
  | num (n : Nat)
  | range (a b : Nat)
  | stepAll (k : Nat)
  | stepRange (a b k : Nat)
  deriving Repr, DecidableEq

/-- Whether a component value satisfies one entry. -/
def entryMatches (v : Nat) : CronEntry → Bool
  | .all => true
  | .num n => v == n
  | .range a b => decide (a ≤ v) && decide (v ≤ b)
  | .stepAll k => k != 0 && v % k == 0
  | .stepRange a b k => k != 0 && decide (a ≤ v) && decide (v ≤ b) && (v - a) % k == 0

/-- A field (a comma list) matches when some entry matches. -/
def fieldMatches (v : Nat) (f : List CronEntry) : Bool :=
  f.any (entryMatches v)

/-- Broken-down local time: the five components cron constrains. -/
structure LocalTime where
  minute : Nat
  hour : Nat
  mday : Nat
  month : Nat
  wday : Nat
  deriving Repr, DecidableEq

/-- A parsed five-field cron expression. -/
structure CronExpr where
  minute : List CronEntry
  hour : List CronEntry
  mday : List CronEntry
  month : List CronEntry
  wday : List CronEntry

/-- An instant matches when all five fields match its local time. -/
def cronMatches (e : CronExpr) (t : LocalTime) : Bool :=
  fieldMatches t.minute e.minute && fieldMatches t.hour e.hour
    && fieldMatches t.mday e.mday && fieldMatches t.month e.month
    && fieldMatches t.wday e.wday

/-- Minutes in the one-year search horizon. -/
def yearMinutes : Nat := 525600

/-- Linear search for the first matching instant, bounded by fuel. -/
def searchFrom (e : CronExpr) (toLocal : Nat → LocalTime) : Nat → Nat → Option Nat
  | _, 0 => none
  | start, fuel + 1 =>
    if cronMatches e (toLocal start) then some start
    else searchFrom e toLocal (start + 1) fuel

/-- next_after: the first instant strictly greater than t matching the
expression in the given localization, within one year. -/
def nextAfter (e : CronExpr) (toLocal : Nat → LocalTime) (t : Nat) : Option Nat :=
  searchFrom e toLocal (t + 1) yearMinutes

/-! ## The durable task store (db/schema.sql, db/queries.js)

The tasks table is modelled as a list of rows; SQL NULL is Option,
timestamps are Int milliseconds.  Each query updates every row its WHERE
clause selects and returns rows[0] of the RETURNING set, exactly as the
query layer does. -/

/-- The status column of the tasks table. -/
inductive Status where
  | active
  | paused
  | completed
  | failed
  | cancelled
  deriving Repr, DecidableEq

/-- The task_type column of the tasks table. -/
inductive TaskType where
  | one_time
  | recurring
  deriving Repr, DecidableEq

/-- The callback_config JSONB object as the handlers construct it. -/
structure CallbackConfig where
  url : Option String
  channel : Option String
  email : Option String
  deriving Repr, DecidableEq

/-- One row of the tasks table. -/
structure TaskRow where
  id : String
  name : String
  description : Option String
  taskType : TaskType
  scheduledAt : Option Int
  cronExpression : Option String
  timezone : String
  nextRunAt : Option Int
  callbackType : String
  callbackConfig : CallbackConfig
  payload : Json
  status : Status
  maxRetries : Int
  retryDelaySeconds : Int
  currentRetryCount : Int
  lastExecutedAt : Option Int
  executionCount : Nat
  createdAt : Int
  createdBy : Option String
  tags : List String
  lockedAt : Option Int
  lockedBy : Option String

/-- SELECT * FROM tasks WHERE id, taking rows[0]. -/
def getById (s : List TaskRow) (id : String) : Option TaskRow :=
  (s.filter (fun t => t.id == id)).head?

/-- UPDATE tasks SET status WHERE id RETURNING *, taking rows[0]. -/
def updateStatus (s : List TaskRow) (id : String) (st : Status) : Option TaskRow × List TaskRow :=
  let s' := s.map (fun t => if t.id == id then { t with status := st } else t)
  ((s'.filter (fun t => t.id == id)).head?, s')

/-- TaskQueries.cancel. -/
def cancelQuery (s : List TaskRow) (id : String) : Option TaskRow × List TaskRow :=
  updateStatus s id .cancelled

/-- TaskQueries.pause. -/
def pauseQuery (s : List TaskRow) (id : String) : Option TaskRow × List TaskRow :=
  updateStatus s id .paused

/-- TaskQueries.resume. -/
def resumeQuery (s : List TaskRow) (id : String) : Option TaskRow × List TaskRow :=
  updateStatus s id .active

/-- The WHERE clause of lockTask: the row still has a free lease and is
active. -/
def lockable (id : String) (t : TaskRow) : Bool :=
  t.id == id && t.lockedAt.isNone && t.status == Status.active

/-- TaskQueries.lockTask: the atomic compare-and-set UPDATE that takes
the lease, returning the updated row or none when no row qualified. -/
def lockTask (s : List TaskRow) (id workerId : String) (now : Int) : Option TaskRow × List TaskRow :=
  let upd (t : TaskRow) : TaskRow := { t with lockedAt := some now, lockedBy := some workerId }
  let s' := s.map (fun t => if lockable id t then upd t else t)
  (((s.filter (lockable id)).head?).map upd, s')

/-- TaskQueries.unlockTask: clear the lease fields. -/
def unlockTask (s : List TaskRow) (id : String) : Option TaskRow × List TaskRow :=
  let s' := s.map (fun t => if t.id == id then { t with lockedAt := none, lockedBy := none } else t)
  ((s'.filter (fun t => t.id == id)).head?, s')

/-- TaskQueries.recordExecution: stamp last_executed_at, bump
execution_count, set next_run_at, mark completed when asked, and clear
the lease. -/
def recordExecution (s : List TaskRow) (id : String) (nextRunAt : Option Int)
    (completed : Bool) (now : Int) : Option TaskRow × List TaskRow :=
  let s' := s.map (fun t =>
    if t.id == id then
      { t with
        lastExecutedAt := some now
        executionCount := t.executionCount + 1
        nextRunAt := nextRunAt
        status := if completed then .completed else t.status
        lockedAt := none
        lockedBy := none }
    else t)
  ((s'.filter (fun t => t.id == id)).head?, s')

/-- cleanupStaleLocks of the scheduler worker: clear every lease older
than the lock timeout. -/
def cleanupStaleLocks (s : List TaskRow) (now lockTimeoutMs : Int) : List TaskRow :=
  s.map (fun t =>
    match t.lockedAt with
    | some la =>
      if la < now - lockTimeoutMs then { t with lockedAt := none, lockedBy := none } else t
    | none => t)

/-- TaskQueries.countActiveByUser: COUNT of active or paused rows owned
by the session. -/
def countActiveByUser (s : List TaskRow) (createdBy : String) : Nat :=
  (s.filter (fun t =>
    t.createdBy == some createdBy
      && (t.status == Status.active || t.status == Status.paused))).length

/-- The selection predicate of the due_tasks view. -/
def isDue (t : TaskRow) (now : Int) : Bool :=
  t.status == Status.active && t.lockedAt.isNone
    && ((t.taskType == TaskType.one_time
          && (match t.scheduledAt with
              | some x => decide (x ≤ now)
              | none => false))
        || (t.taskType == TaskType.recurring
              && (match t.nextRunAt with
                  | some x => decide (x ≤ now)
                  | none => false)))

/-- The JavaScript a-or-b idiom on strings, where the empty string is
falsy. -/
def strOr (o : Option String) (d : String) : String :=
  match o with
  | some s => if s = "" then d else s
  | none => d

/-- The fields the tool handlers pass to TaskQueries.create. -/
structure NewTask where
  name : String
  description : Option String
  taskType : TaskType
  scheduledAt : Option Int
  cronExpression : Option String
  timezone : Option String
  nextRunAt : Option Int
  callbackType : String
  callbackConfig : CallbackConfig
  payload : Option Json
  maxRetries : Option Int
  retryDelaySeconds : Option Int
  createdBy : Option String
  tags : List String

/-- The row TaskQueries.create inserts, with the defaults of the INSERT
statement and of the schema: fresh id, status active, zero counters,
free lease, next_run_at falling back to scheduled_at. -/
def createRow (newId : String) (now : Int) (t : NewTask) : TaskRow :=
  { id := newId
    name := t.name
    description := t.description
    taskType := t.taskType
    scheduledAt := t.scheduledAt
    cronExpression := t.cronExpression
    timezone := strOr t.timezone "UTC"
    nextRunAt := t.nextRunAt <|> t.scheduledAt
    callbackType := t.callbackType
    callbackConfig := t.callbackConfig
    payload := t.payload.getD (.obj [])
    status := .active
    maxRetries := t.maxRetries.getD 3
    retryDelaySeconds := t.retryDelaySeconds.getD 60
    currentRetryCount := 0
    lastExecutedAt := none
    executionCount := 0
    createdAt := now
    createdBy := t.createdBy
    tags := t.tags
    lockedAt := none
    lockedBy := none }

/-- TaskQueries.create: INSERT the new row. -/
def createTask (s : List TaskRow) (newId : String) (now : Int) (t : NewTask) : TaskRow × List TaskRow :=
  let row := createRow newId now t
  (row, s ++ [row])

/-! ## validateWebhookUrl (utils/security.js)

External effects are parameters: DNS resolution (already wrapped with
catch-to-empty-list as in the source), the net module IP-literal tests,
and the production flag and domain allowlist from the configuration. -/

/-- The external dependencies of the tool handlers: Date parsing, the ms
package, getNextCronRun (backed by cron-parser), DNS, the net module IP
tests, configuration values, the fresh uuid and the wall clock. -/
structure Env where
  parseDate : String → Option Int
  msParse : String → Option Int
  cronNext : String → String → Option Int
  resolve4 : String → List String
  resolve6 : String → List String
  isIP4 : String → Bool
  isIP6 : String → Bool
  isProd : Bool
  allowlist : List String
  maxActiveTasks : Nat
  maxPayloadSize : Nat
  newId : String
  now : Int

/-- Lowercase a character list. -/
def toLowerL (l : List Char) : List Char :=
  l.map Char.toLower

/-- Anchored suffix match on character lists. -/
def endsWithL (suffix l : List Char) : Bool :=
  startsWithP suffix.reverse l.reverse

/-- The parts of a parsed URL the validator reads. -/
structure UrlParts where
  protocol : String
  hostname : String
  deriving Repr, DecidableEq

/-- Chars after the last at-sign, or the whole list without one; the URL
parser uses it to strip userinfo from the authority. -/
def afterLastAt (l : List Char) : List Char :=
  l.foldl (fun acc c => if c == '@' then [] else acc ++ [c]) []

/-- A model of the WHATWG URL constructor for the scheme://authority
forms the system accepts: it yields the lowercased protocol (with
trailing colon) and lowercased hostname, keeps the brackets of an IPv6
literal, strips userinfo, port, path, query and fragment, and fails on
an empty scheme or host. -/
def parseUrl (s : String) : Option UrlParts :=
  let l := s.data
  let schemeChars := l.takeWhile (fun c => !(c == ':'))
  if schemeChars.isEmpty then none
  else
    match l.dropWhile (fun c => !(c == ':')) with
    | ':' :: '/' :: '/' :: rest2 =>
      let authority := rest2.takeWhile (fun c => !(c == '/' || c == '?' || c == '#'))
      let hostPort := afterLastAt authority
      match hostPort with
      | [] => none
      | '[' :: inner =>
        if inner.contains ']' then
          let host := '[' :: (inner.takeWhile (fun c => !(c == ']'))) ++ [']']
          some ⟨String.mk (toLowerL schemeChars) ++ ":", String.mk (toLowerL host)⟩
        else none
      | _ =>
        let host := hostPort.takeWhile (fun c => !(c == ':'))
        let port := (hostPort.dropWhile (fun c => !(c == ':'))).drop 1
        if host.isEmpty then none
        else if !(port.all isDigitC) then none
        else some ⟨String.mk (toLowerL schemeChars) ++ ":", String.mk (toLowerL host)⟩
    | _ => none

/-- The BLOCKED_HOSTNAMES table. -/
def blockedHostnames : List String :=
  ["localhost", "localhost.localdomain", "*.local", "*.localhost",
   "metadata.google.internal", "metadata.internal", "169.254.169.254",
   "instance-data", "kubernetes.default.svc", "*.kubernetes.default.svc"]

/-- The blocked-hostname loop: a star-dot entry matches its suffix or
the bare name, any other entry matches exactly. -/
def hostnameBlocked (h : List Char) : Bool :=
  blockedHostnames.any (fun blocked =>
    match blocked.data with
    | '*' :: '.' :: restB =>
      endsWithL ('.' :: restB) h || h == restB
    | b => h == b)

/-- Result shape of validateWebhookUrl. -/
structure UrlValidation where
  valid : Bool
  error : Option String
  resolvedIps : List String
  deriving Repr, DecidableEq

/-- validateWebhookUrl from utils/security.js: parse, scheme check,
production HTTPS requirement, hostname blocklist, bracketed IPv6
literal test, domain allowlist, DNS resolution of both families with
fallback to an IP-literal hostname, and blocklist testing of every
resolved address. -/
def validateWebhookUrl (env : Env) (urlString : String) : UrlValidation :=
  match parseUrl urlString with
  | none => ⟨false, some "Invalid URL", []⟩
  | some u =>
    if u.protocol ≠ "https:" ∧ u.protocol ≠ "http:" then
      ⟨false, some "URL must use http or https protocol", []⟩
    else if env.isProd ∧ u.protocol ≠ "https:" then
      ⟨false, some "HTTPS required in production", []⟩
    else
      let hostname := toLowerL u.hostname.data
      if hostnameBlocked hostname then ⟨false, some "Hostname is blocked", []⟩
      else
        let bracketCheck : Option UrlValidation :=
          match hostname with
          | '[' :: inner =>
            if endsWithL [']'] ('[' :: inner) then
              let ipv6 := inner.dropLast
              if isBlockedIPChars ipv6 then some ⟨false, some "IPv6 address is blocked", []⟩
              else none
            else none
          | _ => none
      match bracketCheck with
      | some r => r
      | none =>
        if env.allowlist ≠ [] ∧
            !(env.allowlist.any (fun d => hostname == d.data || endsWithL ('.' :: d.data) hostname)) then
          ⟨false, some "Domain not in allowlist", []⟩
        else
          let hostStr := String.mk hostname
          let resolved := env.resolve4 hostStr ++ env.resolve6 hostStr
          let resolved2 :=
            if resolved.isEmpty then
              if env.isIP4 hostStr || env.isIP6 hostStr then [hostStr] else []
            else resolved
          if resolved.isEmpty ∧ !(env.isIP4 hostStr || env.isIP6 hostStr) then
            ⟨false, some "DNS resolution failed", []⟩
          else if resolved2.any (fun ip => isBlockedIP ip) then
            ⟨false, some "IP is in a blocked range (SSRF protection)", []⟩
          else ⟨true, none, resolved2⟩

/-! ## Tool handlers (tools/schedule_task.js, tools/schedule_recurring.js,
tools/cancel_task.js, tools/pause_resume.js) -/

/-- The result fields of a tool handler that the claims concern. -/
structure ToolResult where
  success : Bool
  error : Option String
  deriving Repr, DecidableEq

/-- The callback argument object of the scheduling tools. -/
structure Callback where
  type : Option String
  url : Option String
  channel : Option String
  email : Option String
  deriving Repr, DecidableEq

/-- JavaScript truthiness of an optional string. -/
def strTruthy (o : Option String) : Bool :=
  match o with
  | some s => s ≠ ""
  | none => false

/-- parseTimeInput from utils/time.js: an absolute timestamp must parse
and lie strictly in the future, a relative duration goes through the ms
package, and one of the two must be present. -/
def parseTimeInput (env : Env) (timingAt timingIn : Option String) : Except String Int :=
  if strTruthy timingAt then
    match env.parseDate (timingAt.getD "") with
    | none => .error "Invalid datetime format"
    | some d => if d ≤ env.now then .error "Scheduled time must be in the future" else .ok d
  else if strTruthy timingIn then
    match env.msParse (timingIn.getD "") with
    | none => .error "Invalid relative time format"
    | some msv => .ok (env.now + msv)
  else .error "Either at or in must be specified for timing"

/-- The arguments of schedule_task (at and in renamed, both being Lean
keywords). -/
structure ScheduleTaskParams where
  name : String
  description : Option String
  atTime : Option String
  inTime : Option String
  callback : Option Callback
  payload : Option Json
  timezone : Option String
  tags : Option (List String)
  retries : Option Int

/-- The schedule_task handler: timing, callback, webhook-URL, email and
payload validation, then the per-session cap, then the insert. -/
def scheduleTaskHandler (env : Env) (params : ScheduleTaskParams)
    (sessionId : Option String) (store : List TaskRow) : ToolResult × List TaskRow :=
  match parseTimeInput env params.atTime params.inTime with
  | .error e => (⟨false, some e⟩, store)
  | .ok scheduledAt =>
    match params.callback with
    | none => (⟨false, some "Callback configuration with type is required"⟩, store)
    | some cb =>
      if !(strTruthy cb.type) then
        (⟨false, some "Callback configuration with type is required"⟩, store)
      else
        let cbType := cb.type.getD ""
        if cbType == "webhook" && !(strTruthy cb.url) then
          (⟨false, some "Webhook URL is required for webhook callback type"⟩, store)
        else if cbType == "webhook" && !((validateWebhookUrl env (cb.url.getD "")).valid) then
          (⟨false, some "Invalid webhook URL"⟩, store)
        else if cbType == "email" && !(strTruthy cb.email) then
          (⟨false, some "Email address is required for email callback type"⟩, store)
        else
          let sp := sanitizePayload env.maxPayloadSize params.payload
          if !sp.valid then (⟨false, sp.error⟩, store)
          else
            let session := strOr sessionId "anonymous"
            if countActiveByUser store session ≥ env.maxActiveTasks then
              (⟨false, some "Maximum active tasks limit reached"⟩, store)
            else
              let (_, store') := createTask store env.newId env.now
                { name := params.name
                  description := params.description
                  taskType := .one_time
                  scheduledAt := some scheduledAt
                  cronExpression := none
                  timezone := some (strOr params.timezone "UTC")
                  nextRunAt := none
                  callbackType := cbType
                  callbackConfig := ⟨cb.url, cb.channel, cb.email⟩
                  payload := sp.sanitized
                  maxRetries := some (params.retries.getD 3)
                  retryDelaySeconds := some 60
                  createdBy := some session
                  tags := params.tags.getD [] }
              (⟨true, none⟩, store')

/-- The arguments of schedule_recurring. -/
structure ScheduleRecurringParams where
  name : String
  description : Option String
  cron : Option String
  timezone : Option String
  callback : Option Callback
  payload : Option Json
  tags : Option (List String)
  enabled : Option Bool

/-- The schedule_recurring handler: cron validation, next-run
computation, callback and webhook-URL validation, payload sanitization,
the per-session cap, the insert, and the pause of a task created
disabled. -/
def scheduleRecurringHandler (env : Env) (params : ScheduleRecurringParams)
    (sessionId : Option String) (store : List TaskRow) : ToolResult × List TaskRow :=
  let cron := params.cron.getD ""
  let timezone := params.timezone.getD "UTC"
  let enabled := params.enabled.getD true
  let cv := validateCronExpression cron
  if !cv.valid then (⟨false, cv.error⟩, store)
  else
    match env.cronNext cron timezone with
    | none => (⟨false, some "Failed to parse cron expression"⟩, store)
    | some nextRunAt =>
      match params.callback with
      | none => (⟨false, some "Callback configuration with type is required"⟩, store)
      | some cb =>
        if !(strTruthy cb.type) then
          (⟨false, some "Callback configuration with type is required"⟩, store)
        else
          let cbType := cb.type.getD ""
          if cbType == "webhook" && !(strTruthy cb.url) then
            (⟨false, some "Webhook URL is required"⟩, store)
          else if cbType == "webhook" && !((validateWebhookUrl env (cb.url.getD "")).valid) then
            (⟨false, some "Invalid webhook URL"⟩, store)
          else
            let sp := sanitizePayload env.maxPayloadSize params.payload
            if !sp.valid then (⟨false, sp.error⟩, store)
            else
              let session := strOr sessionId "anonymous"
              if countActiveByUser store session ≥ env.maxActiveTasks then
                (⟨false, some "Maximum active tasks limit reached"⟩, store)
              else
                let (row, store') := createTask store env.newId env.now
                  { name := params.name
                    description := params.description
                    taskType := .recurring
                    scheduledAt := none
                    cronExpression := some cron
                    timezone := some timezone
                    nextRunAt := some nextRunAt
                    callbackType := cbType
                    callbackConfig := ⟨cb.url, cb.channel, cb.email⟩
                    payload := sp.sanitized
                    maxRetries := some 3
                    retryDelaySeconds := some 60
                    createdBy := some session
                    tags := params.tags.getD [] }
                let store'' := if !enabled then (pauseQuery store' row.id).2 else store'
                (⟨true, none⟩, store'')

/-- The cancel_task handler: not-found, already-cancelled and completed
guards, then the status update. -/
def cancelTaskHandler (store : List TaskRow) (id : String) : ToolResult × List TaskRow :=
  match getById store id with
  | none => (⟨false, some "Task not found"⟩, store)
  | some task =>
    if task.status == Status.cancelled then (⟨false, some "Task is already cancelled"⟩, store)
    else if task.status == Status.completed then
      (⟨false, some "Cannot cancel a completed task"⟩, store)
    else
      let (_, store') := cancelQuery store id
      (⟨true, none⟩, store')

/-- The resume_task handler of tools/pause_resume.js.  A recurring task
with a truthy cron expression gets a freshly recomputed next run; the
source then guards recordExecution with a strict inequality between the
fresh Date object and the stored one, which, being a reference
comparison, holds exactly when the recomputation produced a non-null
Date. -/
def resumeTaskHandler (env : Env) (store : List TaskRow) (id : String) : ToolResult × List TaskRow :=
  match getById store id with
  | none => (⟨false, some "Task not found"⟩, store)
  | some task =>
    if task.status ≠ Status.paused then (⟨false, some "Cannot resume task"⟩, store)
    else
      let recomputed : Option Int :=
        if task.taskType == TaskType.recurring && strTruthy task.cronExpression then
          env.cronNext (task.cronExpression.getD "") task.timezone
        else none
      let (_, store1) := resumeQuery store id
      let store2 :=
        match recomputed with
        | some v => (recordExecution store1 id (some v) false env.now).2
        | none => store1
      (⟨true, none⟩, store2)

/-- The pause_task handler of tools/pause_resume.js. -/
def pauseTaskHandler (store : List TaskRow) (id : String) : ToolResult × List TaskRow :=
  match getById store id with
  | none => (⟨false, some "Task not found"⟩, store)
  | some task =>
    if task.status ≠ Status.active then (⟨false, some "Cannot pause task"⟩, store)
    else
      let (_, store') := pauseQuery store id
      (⟨true, none⟩, store')

/-! ## The tool registry dispatcher (tools/index.js) -/

/-- executeTool: look the handler up by name, report an unknown tool,
and catch any exception of the handler, returning it as a failure
result.  The registry and the parameter type are abstract; a handler is
a function that either returns a result or throws a message. -/
def executeTool {P : Type} (handlers : String → Option (P → Except String ToolResult))
    (name : String) (params : P) : ToolResult :=
  match handlers name with
  | none => ⟨false, some ("Unknown tool: " ++ name)⟩
  | some h =>
    match h params with
    | .ok r => r
    | .error e => ⟨false, some ("Tool execution failed: " ++ e)⟩

/-! ## The worker step executeTask (workers/scheduler.js) -/

/-- One row of the task_executions table. -/
structure ExecutionRow where
  id : String
  taskId : String
  status : String
  responseCode : Option Int
  responseBody : Option String
  errorMessage : Option String
  durationMs : Option Int
  retryNumber : Int
  requestUrl : Option String
  requestPayload : Json
  executedAt : Int
  completedAt : Option Int

/-- One row of the stored_notifications table. -/
structure StoredNotification where
  taskId : String
  payload : Json
  sessionId : Option String
  createdAt : Int

/-- The three tables the worker touches. -/
structure DbState where
  tasks : List TaskRow
  executions : List ExecutionRow
  notifications : List StoredNotification

/-- The result object a callback dispatcher returns. -/
structure DispatchResult where
  success : Bool
  statusCode : Option Int
  body : Option String
  error : Option String
  deriving Repr, DecidableEq

/-- ExecutionQueries.create: INSERT the execution row. -/
def executionCreate (db : DbState) (row : ExecutionRow) : DbState :=
  { db with executions := db.executions ++ [row] }

/-- ExecutionQueries.complete: finalize the execution row. -/
def executionComplete (db : DbState) (execId : String) (status : String)
    (responseCode : Option Int) (responseBody : Option String) (durationMs : Int)
    (errorMessage : Option String) (endMs : Int) : DbState :=
  { db with
    executions := db.executions.map (fun e =>
      if e.id == execId then
        { e with
          completedAt := some endMs
          status := status
          responseCode := responseCode
          responseBody := responseBody
          durationMs := some durationMs
          errorMessage := errorMessage }
      else e) }

/-- executeTask of the scheduler worker: open a running execution,
dispatch by callback type (the webhook, slack and email senders are
external and passed as the dispatch parameter; the store kind inserts a
notification; an unknown kind fails), finalize the execution, then
advance the task: one-time tasks are recorded completed, recurring
tasks get the freshly computed next run — in both cases regardless of
the dispatch outcome. -/
def executeTask (dispatch : TaskRow → DispatchResult)
    (cronNext : String → String → Option Int) (execId : String)
    (startMs endMs : Int) (db : DbState) (task : TaskRow) : DispatchResult × DbState :=
  let db1 := executionCreate db
    { id := execId, taskId := task.id, status := "running", responseCode := none,
      responseBody := none, errorMessage := none, durationMs := none, retryNumber := 0,
      requestUrl := task.callbackConfig.url, requestPayload := task.payload,
      executedAt := startMs, completedAt := none }
  let step : DispatchResult × DbState :=
    if task.callbackType == "webhook" || task.callbackType == "slack"
        || task.callbackType == "email" then
      (dispatch task, db1)
    else if task.callbackType == "store" then
      (⟨true, none, none, none⟩,
        { db1 with
          notifications := db1.notifications ++
            [{ taskId := task.id
               payload := Json.obj
                 [("task_id", .str task.id), ("task_name", .str task.name),
                  ("executed_at", .num endMs), ("payload", task.payload)]
               sessionId := task.createdBy
               createdAt := endMs }] })
    else (⟨false, none, none, some ("Unknown callback type: " ++ task.callbackType)⟩, db1)
  let result := step.1
  let db3 := executionComplete step.2 execId (if result.success then "success" else "failed")
    result.statusCode result.body (endMs - startMs) result.error endMs
  let db4 :=
    if task.taskType == TaskType.one_time then
      { db3 with tasks := (recordExecution db3.tasks task.id none true endMs).2 }
    else
      let next :=
        match task.cronExpression with
        | some c => cronNext c task.timezone
        | none => none
      { db3 with tasks := (recordExecution db3.tasks task.id next false endMs).2 }
  (result, db4)

/-! ## Theorems -/

/-- The bounded search, when it returns a value, returns the first
matching instant in its window. -/
theorem searchFrom_some_spec (e : CronExpr) (toLocal : Nat → LocalTime) :
    ∀ (fuel start r : Nat), searchFrom e toLocal start fuel = some r →
      start ≤ r ∧ r < start + fuel ∧ cronMatches e (toLocal r) = true ∧
        ∀ m, start ≤ m → m < r → cronMatches e (toLocal m) = false := by
  intro fuel
  induction fuel with
  | zero => intro start r h; simp [searchFrom] at h
  | succ n ih =>
    intro start r h
    simp only [searchFrom] at h
    split at h
    · rename_i hc
      obtain rfl : start = r := by simpa using h
      refine ⟨Nat.le_refl _, by omega, hc, ?_⟩
      intro m h1 h2
      omega
    · rename_i hc
      obtain ⟨h1, h2, h3, h4⟩ := ih (start + 1) r h
      refine ⟨by omega, by omega, h3, ?_⟩
      intro m hm1 hm2
      rcases Nat.eq_or_lt_of_le hm1 with hm | hm
      · subst hm; exact Bool.not_eq_true _ ▸ hc
      · exact h4 m (by omega) hm2

/-- The bounded search returns none exactly when nothing in its window
matches. -/
theorem searchFrom_none_spec (e : CronExpr) (toLocal : Nat → LocalTime) :
    ∀ (fuel start : Nat), searchFrom e toLocal start fuel = none ↔
      ∀ m, start ≤ m → m < start + fuel → cronMatches e (toLocal m) = false := by
  intro fuel
  induction fuel with
  | zero =>
    intro start
    simp only [searchFrom]
    constructor
    · intro _ m h1 h2; omega
    · intro _; trivial
  | succ n ih =>
    intro start
    simp only [searchFrom]
    split
    · rename_i hc
      constructor
      · intro h; simp at h
      · intro hall
        have := hall start (Nat.le_refl _) (by omega)
        rw [hc] at this
        cases this
    · rename_i hc
      rw [ih (start + 1)]
      constructor
      · intro hall m h1 h2
        rcases Nat.eq_or_lt_of_le h1 with hm | hm
        · subst hm; exact Bool.not_eq_true _ ▸ hc
        · exact hall m (by omega) (by omega)
      · intro hall m h1 h2
        exact hall m (by omega) (by omega)

/-- Claim C3: next_after returns the smallest instant strictly greater
than t that matches the cron expression in the given timezone
localization, and it fails exactly when the expression matches no
instant within one year of t. -/
theorem nextAfter_least_match_within_year :
    ∀ (e : CronExpr) (toLocal : Nat → LocalTime) (t : Nat),
      (∀ r, nextAfter e toLocal t = some r →
        t < r ∧ cronMatches e (toLocal r) = true ∧
          ∀ m, t < m → m < r → cronMatches e (toLocal m) = false) ∧
      (nextAfter e toLocal t = none ↔
        ∀ m, t < m → m ≤ t + yearMinutes → cronMatches e (toLocal m) = false) := by
  intro e toLocal t
  constructor
  · intro r h
    obtain ⟨h1, _, h3, h4⟩ := searchFrom_some_spec e toLocal yearMinutes (t + 1) r h
    exact ⟨by omega, h3, fun m hm1 hm2 => h4 m (by omega) hm2⟩
  · rw [nextAfter, searchFrom_none_spec]
    constructor
    · intro hall m h1 h2; exact hall m (by omega) (by omega)
    · intro hall m h1 h2; exact hall m (by omega) (by omega)

/-- A cron expression firing at minute 30 of every hour. -/
def demoCron : CronExpr :=
  ⟨[.num 30], [.all], [.all], [.all], [.all]⟩

/-- A simple localization used to instantiate the evaluator. -/
def demoLocal : Nat → LocalTime :=
  fun m => ⟨m % 60, (m / 60) % 24, (m / 1440) % 28 + 1, (m / 40320) % 12 + 1, (m / 1440) % 7⟩

/-- Witness for C3 at a concrete expression, localization and instant. -/
theorem nextAfter_least_match_within_year_witness :
    0 < 30 ∧ cronMatches demoCron (demoLocal 30) = true := by
  have h := (nextAfter_least_match_within_year demoCron demoLocal 0).1 30 (by decide)
  exact ⟨h.1, h.2.1⟩

/-- The whitelist exactly as the claim states it: digits, space, tab,
comma, dash, asterisk, slash, L, W, hash and question mark. -/
def claimedCronWhitelist (c : Char) : Bool :=
  isDigitC c || c == ' ' || c == '\t' || c == ',' || c == '-' || c == '*' || c == '/'
    || c == 'L' || c == 'W' || c == '#' || c == '?'

/-- Counterexample to claim C5 as stated: the newline character is
outside the claimed whitelist, yet the expression containing it
validates, because the source regex uses the s class, which also
accepts newline, carriage return, form feed and vertical tab. -/
theorem validateCron_whitelist_counterexample :
    claimedCronWhitelist '\n' = false
      ∧ '\n' ∈ "5 4 * *\n*".data
      ∧ (validateCronExpression "5 4 * *\n*").valid = true := by
  decide

/-- Claim C5 (amended): every string containing a character outside the
character class of the source regex — digits, JavaScript whitespace,
comma, dash, asterisk, slash, L, W, hash, question mark — fails
validateCronExpression. -/
theorem validateCron_rejects_nonwhitelist :
    ∀ (s : String) (c : Char), c ∈ s.data → allowedCronChar c = false →
      (validateCronExpression s).valid = false := by
  intro s c hc hbad
  have hne : s.data.isEmpty = false := by
    cases hs : s.data with
    | nil => rw [hs] at hc; cases hc
    | cons a l => rfl
  have hall : s.data.all allowedCronChar = false := by
    rw [Bool.eq_false_iff]
    intro hall
    rw [List.all_eq_true] at hall
    have := hall c hc
    rw [hbad] at this
    cases this
  simp [validateCronExpression, hne, hall]

/-- Witness for the amended C5 at a concrete input: a semicolon fails
the whitelist. -/
theorem validateCron_rejects_nonwhitelist_witness :
    (validateCronExpression "0 9 * * ;").valid = false :=
  validateCron_rejects_nonwhitelist "0 9 * * ;" ';' (by decide) (by decide)

/-- A concrete stand-in for the HMAC primitive. -/
def demoHmac : String → String := fun _ => "00"

/-- A timestamp parser on which every input is invalid; JavaScript Date
parsing in particular treats the empty string as invalid. -/
def noParse : String → Option Int := fun _ => none

/-- Counterexample to claim C6 as stated: with an empty (hence
unparseable) timestamp, verifyHmacSignature does not fail — the source
guards both timestamp checks behind the truthiness of the timestamp, so
a falsy timestamp skips them and the signature over the bare payload
verifies. -/
theorem verifyHmac_empty_timestamp_counterexample :
    noParse "" = none
      ∧ (verifyHmacSignature demoHmac noParse 0 "p"
          (generateHmacSignature demoHmac "p" "") "" defaultMaxAgeMs).valid = true := by
  decide

/-- Claim C6 (amended): for a nonempty timestamp, verification fails
when the timestamp is unparseable, fails when it is farther than the
maximum age from now, and otherwise succeeds exactly when the signature
hex-decodes to the same byte string as the freshly computed HMAC over
the timestamp, a dot and the payload (a decoded-length mismatch fails
through the caught constant-time-comparison exception); consequently a
freshly signed payload verifies whenever its timestamp is fresh.  An
empty timestamp skips both timestamp checks. -/
theorem verifyHmac_characterization :
    ∀ (hmac : String → String) (parseTs : String → Option Int) (nowMs : Int)
      (payload signature timestamp : String) (maxAgeMs : Int),
      (timestamp ≠ "" → parseTs timestamp = none →
        verifyHmacSignature hmac parseTs nowMs payload signature timestamp maxAgeMs
          = ⟨false, some "Invalid timestamp format"⟩) ∧
      (∀ m, timestamp ≠ "" → parseTs timestamp = some m →
        (|nowMs - m| > maxAgeMs) →
        verifyHmacSignature hmac parseTs nowMs payload signature timestamp maxAgeMs
          = ⟨false, some "Timestamp too old or too far in future"⟩) ∧
      (∀ m, timestamp ≠ "" → parseTs timestamp = some m →
        ¬(|nowMs - m| > maxAgeMs) →
        ((verifyHmacSignature hmac parseTs nowMs payload signature timestamp maxAgeMs).valid = true
          ↔ hexDecode (hmac (timestamp ++ "." ++ payload)).data = hexDecode signature.data)) ∧
      (∀ m, timestamp ≠ "" → parseTs timestamp = some m →
        ¬(|nowMs - m| > maxAgeMs) →
        (verifyHmacSignature hmac parseTs nowMs payload
          (generateHmacSignature hmac payload timestamp) timestamp maxAgeMs).valid = true) := by
  intro hmac parseTs nowMs payload signature timestamp maxAgeMs
  have hexp : generateHmacSignature hmac payload timestamp
      = hmac (if timestamp ≠ "" then timestamp ++ "." ++ payload else payload) := rfl
  refine ⟨?_, ?_, ?_, ?_⟩
  · intro hts hnone
    simp [verifyHmacSignature, hts, hnone]
  · intro m hts hsome hage
    simp [verifyHmacSignature, hts, hsome, hage]
  · intro m hts hsome hage
    simp only [verifyHmacSignature, hexp, if_pos hts, hsome, if_neg hage]
    by_cases hlen : (hexDecode (hmac (timestamp ++ "." ++ payload)).data).length
        ≠ (hexDecode signature.data).length
    · rw [if_pos hlen]
      constructor
      · intro h; simp at h
      · intro h; exact absurd (congrArg List.length h) hlen
    · rw [not_not] at hlen
      rw [if_neg (not_not_intro hlen)]
      simp
  · intro m hts hsome hage
    simp only [verifyHmacSignature, hexp, if_pos hts, hsome, if_neg hage]
    simp [hts]

/-- Witness for the amended C6 at a concrete instantiation: a fresh,
parseable timestamp verifies its own signature. -/
theorem verifyHmac_characterization_witness :
    (verifyHmacSignature demoHmac (fun _ => some 1) 2 "p"
      (generateHmacSignature demoHmac "p" "t") "t" defaultMaxAgeMs).valid = true :=
  (verifyHmac_characterization demoHmac (fun _ => some 1) 2 "p"
      (generateHmacSignature demoHmac "p" "t") "t" defaultMaxAgeMs).2.2.2 1
    (by decide) rfl (by decide)

/-- Claim C10: executeTool is a total function of the registry, the tool
name and the parameters: an unregistered name reports the unknown tool,
a handler result is passed through, and a handler exception is caught
and reported as a failure result. -/
theorem executeTool_total_spec :
    ∀ (P : Type) (handlers : String → Option (P → Except String ToolResult))
      (name : String) (p : P),
      (handlers name = none →
        executeTool handlers name p = ⟨false, some ("Unknown tool: " ++ name)⟩) ∧
      (∀ h e, handlers name = some h → h p = .error e →
        executeTool handlers name p = ⟨false, some ("Tool execution failed: " ++ e)⟩) ∧
      (∀ h r, handlers name = some h → h p = .ok r → executeTool handlers name p = r) := by
  intro P handlers name p
  refine ⟨?_, ?_, ?_⟩
  · intro hn; simp [executeTool, hn]
  · intro h e hs he; simp [executeTool, hs, he]
  · intro h r hs hr; simp [executeTool, hs, hr]

/-- After the lock update has run over a row, that row can no longer
satisfy the lock predicate: either it was just locked, or it already
failed the predicate. -/
theorem lockable_lock_update (id w : String) (now : Int) (t : TaskRow) :
    lockable id
      (if lockable id t then { t with lockedAt := some now, lockedBy := some w } else t)
      = false := by
  by_cases h : lockable id t = true
  · rw [if_pos h]; simp [lockable]
  · rw [if_neg h]; simpa using h

/-- If some row of the store satisfies the lock predicate, lockTask
returns a row. -/
theorem lockTask_isSome_of_mem (s : List TaskRow) (id w : String) (now : Int)
    (x : TaskRow) (hx : x ∈ s) (hl : lockable id x = true) :
    ((lockTask s id w now).1).isSome = true := by
  simp only [lockTask]
  cases hfl : s.filter (lockable id) with
  | nil =>
    exfalso
    exact List.filter_eq_nil_iff.mp hfl x hx hl
  | cons a l => simp [hfl]

/-- Claim C1: lockTask takes the lease only on a free active row,
stamping locked_at and locked_by; afterwards every further lockTask on
the task returns none, until unlockTask, recordExecution or the
stale-lock cleanup (once the lease has aged past the timeout) clears
the lease, after which lockTask can succeed again. -/
theorem lockTask_lease_exclusive
    (s : List TaskRow) (id w : String) (now : Int) (r : TaskRow) (s' : List TaskRow)
    (h : lockTask s id w now = (some r, s')) :
    r.lockedAt = some now ∧ r.lockedBy = some w ∧
    (∀ w2 now2, (lockTask s' id w2 now2).1 = none) ∧
    (∀ w2 now2, ((lockTask (unlockTask s' id).2 id w2 now2).1).isSome = true) ∧
    (∀ nxt now3 w2 now2,
      ((lockTask (recordExecution s' id nxt false now3).2 id w2 now2).1).isSome = true) ∧
    (∀ nowR timeout w2 now2, now < nowR - timeout →
      ((lockTask (cleanupStaleLocks s' nowR timeout) id w2 now2).1).isSome = true) := by
  have h1 : ((s.filter (lockable id)).head?).map
      (fun t => { t with lockedAt := some now, lockedBy := some w }) = some r := by
    simpa [lockTask] using congrArg Prod.fst h
  have h2 : s.map
      (fun t => if lockable id t then { t with lockedAt := some now, lockedBy := some w } else t)
      = s' := by
    simpa [lockTask] using congrArg Prod.snd h
  obtain ⟨t0, hhead, hr⟩ := Option.map_eq_some'.mp h1
  have ht0mem : t0 ∈ s.filter (lockable id) := by
    cases hfl : s.filter (lockable id) with
    | nil => rw [hfl] at hhead; cases hhead
    | cons a l =>
      rw [hfl] at hhead
      injection hhead with he
      exact he ▸ List.mem_cons_self a l
  obtain ⟨ht0s, ht0lock⟩ := List.mem_filter.mp ht0mem
  have hlk := ht0lock
  simp only [lockable, Bool.and_eq_true, beq_iff_eq, Option.isNone_iff_eq_none] at hlk
  obtain ⟨⟨hid, hfree⟩, hact⟩ := hlk
  subst hr
  subst h2
  have hupd : (if lockable id t0
      then { t0 with lockedAt := some now, lockedBy := some w } else t0)
      = { t0 with lockedAt := some now, lockedBy := some w } := if_pos ht0lock
  have hmem' : { t0 with lockedAt := some now, lockedBy := some w }
      ∈ s.map (fun t =>
        if lockable id t then { t with lockedAt := some now, lockedBy := some w } else t) :=
    List.mem_map.mpr ⟨t0, ht0s, hupd⟩
  refine ⟨rfl, rfl, ?_, ?_, ?_, ?_⟩
  · intro w2 now2
    have hf : (s.map (fun t =>
        if lockable id t then { t with lockedAt := some now, lockedBy := some w } else t)).filter
          (lockable id) = [] := by
      apply List.filter_eq_nil_iff.mpr
      intro x hx
      obtain ⟨t, _, rfl⟩ := List.mem_map.mp hx
      rw [lockable_lock_update]
      simp
    simp [lockTask, hf]
  · intro w2 now2
    apply lockTask_isSome_of_mem _ _ w2 now2
      ({ t0 with lockedAt := none, lockedBy := none })
    · show _ ∈ (unlockTask _ id).2
      simp only [unlockTask]
      refine List.mem_map.mpr
        ⟨{ t0 with lockedAt := some now, lockedBy := some w }, hmem', ?_⟩
      rw [if_pos (by simp [hid])]
    · simp [lockable, hid, hact]
  · intro nxt now3 w2 now2
    apply lockTask_isSome_of_mem _ _ w2 now2
      ({ t0 with
          lastExecutedAt := some now3
          executionCount := t0.executionCount + 1
          nextRunAt := nxt
          lockedAt := none
          lockedBy := none })
    · show _ ∈ (recordExecution _ id nxt false now3).2
      simp only [recordExecution]
      refine List.mem_map.mpr
        ⟨{ t0 with lockedAt := some now, lockedBy := some w }, hmem', ?_⟩
      rw [if_pos (by simp [hid])]
      rfl
    · simp [lockable, hid, hact]
  · intro nowR timeout w2 now2 hstale
    apply lockTask_isSome_of_mem _ _ w2 now2
      ({ t0 with lockedAt := none, lockedBy := none })
    · show _ ∈ cleanupStaleLocks _ nowR timeout
      simp only [cleanupStaleLocks]
      refine List.mem_map.mpr
        ⟨{ t0 with lockedAt := some now, lockedBy := some w }, hmem', ?_⟩
      show (if now < nowR - timeout
          then ({ t0 with lockedAt := none, lockedBy := none } : TaskRow)
          else { t0 with lockedAt := some now, lockedBy := some w })
        = { t0 with lockedAt := none, lockedBy := none }
      exact if_pos hstale
    · simp [lockable, hid, hact]

/-- A free, active one-shot task used to instantiate the lease
protocol. -/
def demoTask : TaskRow :=
  { id := "t1", name := "n", description := none, taskType := .one_time,
    scheduledAt := some 10, cronExpression := none, timezone := "UTC", nextRunAt := some 10,
    callbackType := "store", callbackConfig := ⟨none, none, none⟩, payload := .obj [],
    status := .active, maxRetries := 3, retryDelaySeconds := 60, currentRetryCount := 0,
    lastExecutedAt := none, executionCount := 0, createdAt := 0, createdBy := some "s",
    tags := [], lockedAt := none, lockedBy := none }

/-- The demo task once worker w1 holds its lease. -/
def demoLockedTask : TaskRow :=
  { demoTask with lockedAt := some 5, lockedBy := some "w1" }

/-- Witness for C1 at a concrete one-row store: after worker w1 takes
the lease, a second lockTask returns none. -/
theorem lockTask_lease_exclusive_witness :
    (lockTask [demoLockedTask] "t1" "w2" 6).1 = none := by
  have h : lockTask [demoTask] "t1" "w1" 5 = (some demoLockedTask, [demoLockedTask]) := rfl
  exact (lockTask_lease_exclusive [demoTask] "t1" "w1" 5 demoLockedTask [demoLockedTask] h).2.2.1 "w2" 6

/-- Prefix matching holds on any extension of the pattern. -/
theorem startsWithP_append (pat rest : List Char) : startsWithP pat (pat ++ rest) = true := by
  induction pat with
  | nil => rfl
  | cons c cs ih => simp [startsWithP, ih]

/-- Case-insensitive prefix matching holds on any extension of a
pattern whose characters are fixed by lowercasing. -/
theorem startsWithCI_append (pat rest : List Char)
    (h : pat.all (fun c => c.toLower == c) = true) : startsWithCI pat (pat ++ rest) = true := by
  induction pat with
  | nil => rfl
  | cons c cs ih =>
    simp only [List.all_cons, Bool.and_eq_true, beq_iff_eq] at h
    simp [startsWithCI, h.1, ih (by simpa using h.2)]

/-- A string matching an IPv4 block pattern is blocked. -/
theorem blocked_of_ipv4 (l : List Char) (h : ipv4Blocked l = true) : isBlockedIPChars l = true := by
  rw [isBlockedIPChars]
  split
  · rfl
  · rw [h]; rfl

/-- A string matching an IPv6 block pattern is blocked. -/
theorem blocked_of_ipv6 (l : List Char) (h : ipv6Blocked l = true) : isBlockedIPChars l = true := by
  rw [isBlockedIPChars]
  split
  · rfl
  · rw [h]; simp

/-- An IPv4-mapped literal whose embedded dotted quad matches the IPv4
block patterns is blocked through the unwrap branch. -/
theorem blocked_of_mapped (q : List Char) (h1 : isDottedQuad q = true)
    (h2 : ipv4Blocked q = true) :
    isBlockedIPChars (':' :: ':' :: 'f' :: 'f' :: 'f' :: 'f' :: ':' :: q) = true := by
  have hm : mappedPrefix (':' :: ':' :: 'f' :: 'f' :: 'f' :: 'f' :: ':' :: q) = some q := rfl
  rw [isBlockedIPChars]
  split
  · rfl
  · rw [hm]; simp [h1, h2]

/-- Decimal digit characters of a number. -/
def decimal (n : Nat) : List Char := Nat.toDigits 10 n

/-- The second-octet alternation of the private-B pattern accepts every
decimal octet from 16 to 31. -/
theorem block172_decimal (b : Nat) (hb1 : 16 ≤ b) (hb2 : b ≤ 31) (rest : List Char) :
    block172 (['1', '7', '2', '.'] ++ decimal b ++ '.' :: rest) = true := by
  interval_cases b <;> rfl

/-- The second-octet alternation of the CGNAT pattern accepts every
decimal octet from 64 to 129. -/
theorem block100_decimal (b : Nat) (hb1 : 64 ≤ b) (hb2 : b ≤ 129) (rest : List Char) :
    block100 (['1', '0', '0', '.'] ++ decimal b ++ '.' :: rest) = true := by
  interval_cases b <;> rfl

/-- Counterexample to claim C4 as stated: 225.0.0.1 lies inside the
multicast range 224.0.0.0/4 of the claim (first octet between 224 and
239), and 241.0.0.1 inside the reserved 240.0.0.0/4, yet neither is
blocked — the source patterns anchor on the literal octets 224. and
240., covering only /8 of each range; likewise fc80::1 lies in
fc00::/7 and fe90::1 in fe80::/10, but the textual prefixes fc00:,
fd plus hex digits and fe80: match neither. -/
theorem isBlockedIP_slash4_counterexample :
    (224 ≤ 225 ∧ 225 ≤ 239 ∧ isBlockedIP "225.0.0.1" = false)
      ∧ (240 ≤ 241 ∧ 241 ≤ 255 ∧ isBlockedIP "241.0.0.1" = false)
      ∧ isBlockedIP "fc80::1" = false
      ∧ isBlockedIP "fe90::1" = false := by
  decide

/-- Claim C4 (amended): isBlockedIP blocks every literal matching the
ranges as the source patterns implement them: the full prefixes 127.,
10., 192.168., 169.254., 0., 192.0.0., 192.0.2., 198.51.100.,
203.0.113., the single octets 224. and 240. (rather than the whole /4
ranges), 172. with second octet 16-31, 100. with second octet 64-129,
the exact 255.255.255.255, the IPv6 literals ::1 and :: and the
textual prefixes fe80:, fc00:, fd plus two hex digits, ff plus two hex
digits (rather than the full fe80::/10 and fc00::/7 CIDR ranges),
2001:db8:, 100::, 64:ff9b:, and every IPv4-mapped literal
::ffff:a.b.c.d whose dotted quad matches the IPv4 patterns. -/
theorem isBlockedIP_covers_implemented_ranges :
    (∀ rest : List Char,
      isBlockedIPChars (['1', '2', '7', '.'] ++ rest) = true
      ∧ isBlockedIPChars (['1', '0', '.'] ++ rest) = true
      ∧ isBlockedIPChars (['1', '9', '2', '.', '1', '6', '8', '.'] ++ rest) = true
      ∧ isBlockedIPChars (['1', '6', '9', '.', '2', '5', '4', '.'] ++ rest) = true
      ∧ isBlockedIPChars (['0', '.'] ++ rest) = true
      ∧ isBlockedIPChars (['1', '9', '2', '.', '0', '.', '0', '.'] ++ rest) = true
      ∧ isBlockedIPChars (['1', '9', '2', '.', '0', '.', '2', '.'] ++ rest) = true
      ∧ isBlockedIPChars (['1', '9', '8', '.', '5', '1', '.', '1', '0', '0', '.'] ++ rest) = true
      ∧ isBlockedIPChars (['2', '0', '3', '.', '0', '.', '1', '1', '3', '.'] ++ rest) = true
      ∧ isBlockedIPChars (['2', '2', '4', '.'] ++ rest) = true
      ∧ isBlockedIPChars (['2', '4', '0', '.'] ++ rest) = true
      ∧ isBlockedIPChars (['f', 'e', '8', '0', ':'] ++ rest) = true
      ∧ isBlockedIPChars (['f', 'c', '0', '0', ':'] ++ rest) = true
      ∧ isBlockedIPChars (['2', '0', '0', '1', ':', 'd', 'b', '8', ':'] ++ rest) = true
      ∧ isBlockedIPChars (['1', '0', '0', ':', ':'] ++ rest) = true
      ∧ isBlockedIPChars (['6', '4', ':', 'f', 'f', '9', 'b', ':'] ++ rest) = true)
    ∧ isBlockedIP "255.255.255.255" = true
    ∧ isBlockedIP "::1" = true
    ∧ isBlockedIP "::" = true
    ∧ (∀ (b : Nat) (rest : List Char), 16 ≤ b → b ≤ 31 →
        isBlockedIPChars (['1', '7', '2', '.'] ++ decimal b ++ '.' :: rest) = true)
    ∧ (∀ (b : Nat) (rest : List Char), 64 ≤ b → b ≤ 129 →
        isBlockedIPChars (['1', '0', '0', '.'] ++ decimal b ++ '.' :: rest) = true)
    ∧ (∀ (c d : Char) (rest : List Char), isHexCI c = true → isHexCI d = true →
        isBlockedIPChars ('f' :: 'd' :: c :: d :: ':' :: rest) = true)
    ∧ (∀ (c d : Char) (rest : List Char), isHexCI c = true → isHexCI d = true →
        isBlockedIPChars ('f' :: 'f' :: c :: d :: ':' :: rest) = true)
    ∧ (∀ q : List Char, isDottedQuad q = true → ipv4Blocked q = true →
        isBlockedIPChars (':' :: ':' :: 'f' :: 'f' :: 'f' :: 'f' :: ':' :: q) = true) := by
  refine ⟨?_, by decide, by decide, by decide, ?_, ?_, ?_, ?_, blocked_of_mapped⟩
  · exact fun rest =>
      ⟨rfl, rfl, rfl, rfl, rfl, rfl, rfl, rfl, rfl, rfl, rfl, rfl, rfl, rfl, rfl, rfl⟩
  · intro b rest hb1 hb2
    interval_cases b <;> rfl
  · intro b rest hb1 hb2
    interval_cases b <;> rfl
  · intro c d rest hc hd
    refine blocked_of_ipv6 _ ?_
    have hfd : blockFD ('f' :: 'd' :: c :: d :: ':' :: rest) = true := by
      simp [blockFD, hc, hd]
    simp [ipv6Blocked, hfd]
  · intro c d rest hc hd
    refine blocked_of_ipv6 _ ?_
    have hff : blockFF ('f' :: 'f' :: c :: d :: ':' :: rest) = true := by
      simp [blockFF, hc, hd]
    simp [ipv6Blocked, hff]

/-- Witness for the amended C4 at concrete literals in the 172.16/12
and mapped ranges. -/
theorem isBlockedIP_covers_implemented_ranges_witness :
    isBlockedIPChars (['1', '7', '2', '.'] ++ decimal 16 ++ '.' :: ['1']) = true
      ∧ isBlockedIPChars
          (':' :: ':' :: 'f' :: 'f' :: 'f' :: 'f' :: ':' :: "169.254.169.254".data) = true :=
  ⟨isBlockedIP_covers_implemented_ranges.2.2.2.2.1 16 ['1'] (by decide) (by decide),
   isBlockedIP_covers_implemented_ranges.2.2.2.2.2.2.2.2 "169.254.169.254".data
     (by decide) (by decide)⟩

/-- Claim C7: when schedule_task or schedule_recurring returns a
failure — invalid timing, missing or invalid callback, blocked or
invalid webhook URL, invalid cron, oversized payload, or the
per-session active-task cap — the task store is unchanged: both
handlers insert only on their single success path. -/
theorem schedule_validation_failure_preserves_store :
    ∀ (env : Env) (p1 : ScheduleTaskParams) (p2 : ScheduleRecurringParams)
      (sessionId : Option String) (store : List TaskRow),
      ((scheduleTaskHandler env p1 sessionId store).1.success = false →
        (scheduleTaskHandler env p1 sessionId store).2 = store) ∧
      ((scheduleRecurringHandler env p2 sessionId store).1.success = false →
        (scheduleRecurringHandler env p2 sessionId store).2 = store) := by
  intro env p1 p2 sessionId store
  have k1 : (scheduleTaskHandler env p1 sessionId store).1.success = true
      ∨ (scheduleTaskHandler env p1 sessionId store).2 = store := by
    simp only [scheduleTaskHandler]
    repeat' split <;> try simp
  have k2 : (scheduleRecurringHandler env p2 sessionId store).1.success = true
      ∨ (scheduleRecurringHandler env p2 sessionId store).2 = store := by
    simp only [scheduleRecurringHandler]
    repeat' split <;> try simp
  constructor
  · intro h
    rcases k1 with hk | hk
    · rw [h] at hk; cases hk
    · exact hk
  · intro h
    rcases k2 with hk | hk
    · rw [h] at hk; cases hk
    · exact hk

/-- An environment with trivial external effects: no DNS answers, no IP
literals, a relative-time parser knowing 1s, and a cron evaluator that
always fails. -/
def demoEnv : Env :=
  { parseDate := fun _ => none
    msParse := fun s => if s = "1s" then some 1000 else none
    cronNext := fun _ _ => none
    resolve4 := fun _ => []
    resolve6 := fun _ => []
    isIP4 := fun _ => false
    isIP6 := fun _ => false
    isProd := false
    allowlist := []
    maxActiveTasks := 100
    maxPayloadSize := 65536
    newId := "id-1"
    now := 0 }

/-- A one-shot webhook pointed at the cloud metadata address. -/
def demoBlockedParams : ScheduleTaskParams :=
  { name := "t", description := none, atTime := none, inTime := some "1s",
    callback := some ⟨some "webhook", some "http://169.254.169.254/", none, none⟩,
    payload := none, timezone := none, tags := none, retries := none }

/-- Recurring-tool arguments with an empty cron, used to instantiate
the second handler. -/
def demoRecParams : ScheduleRecurringParams :=
  { name := "r", description := none, cron := none, timezone := none,
    callback := none, payload := none, tags := none, enabled := none }

/-- Witness for C7: scheduling a one-shot webhook to the blocked
metadata address 169.254.169.254 fails and inserts nothing into an
empty store. -/
theorem schedule_validation_failure_preserves_store_witness :
    (scheduleTaskHandler demoEnv demoBlockedParams none []).1.success = false
      ∧ (scheduleTaskHandler demoEnv demoBlockedParams none []).2 = [] :=
  ⟨by decide,
   (schedule_validation_failure_preserves_store demoEnv demoBlockedParams demoRecParams
      none []).1 (by decide)⟩

/-- Claim C8 (amended): cancel_task succeeds exactly when the task
exists and its status is active, paused or failed — the source rejects
only the cancelled and completed statuses, so a failed task is also
cancellable. -/
theorem cancelTask_succeeds_iff :
    ∀ (store : List TaskRow) (id : String),
      (cancelTaskHandler store id).1.success = true ↔
        ∃ t, getById store id = some t
          ∧ (t.status = Status.active ∨ t.status = Status.paused ∨ t.status = Status.failed) := by
  intro store id
  simp only [cancelTaskHandler]
  cases hg : getById store id with
  | none => simp
  | some t => cases ht : t.status <;> simp [ht]

/-- The demo task with status failed. -/
def demoFailedTask : TaskRow :=
  { demoTask with id := "t9", status := Status.failed }

/-- Counterexample to claim C8 as stated: a task whose status is failed
is outside the set claimed cancellable, yet cancel_task succeeds on
it — the handler only rejects the cancelled and completed statuses. -/
theorem cancelTask_failed_counterexample :
    ((getById [demoFailedTask] "t9").map (fun t => t.status) = some Status.failed)
      ∧ (cancelTaskHandler [demoFailedTask] "t9").1.success = true := by
  decide

/-- Witness for the amended C8: cancelling an existing active task
succeeds. -/
theorem cancelTask_succeeds_iff_witness :
    (cancelTaskHandler [demoTask] "t1").1.success = true :=
  (cancelTask_succeeds_iff [demoTask] "t1").mpr ⟨demoTask, by rfl, Or.inl (by rfl)⟩

/-- A paused recurring task with seven past executions. -/
def demoPausedTask : TaskRow :=
  { demoTask with
      id := "t2"
      taskType := .recurring
      cronExpression := some "0 9 * * *"
      nextRunAt := some 100
      status := .paused
      executionCount := 7 }

/-- The demo environment with a cron evaluator returning instant 200
and the clock at 50. -/
def demoResumeEnv : Env :=
  { demoEnv with cronNext := fun _ _ => some 200, now := 50 }

/-- Claim C9 is right and the code is wrong: resuming a paused
recurring task routes the recomputed next_fire_at through
recordExecution, which also increments execution_count and stamps
last_executed_at with the resume time — here the count jumps from 7 to
8 and last_executed_at becomes the wall clock of the resume, although
no execution happened.  The spec itself flags this call site as a
source slip and states resume must not bump the counter. -/
theorem resume_mutates_execution_bookkeeping :
    ((resumeTaskHandler demoResumeEnv [demoPausedTask] "t2").1.success = true)
      ∧ ((resumeTaskHandler demoResumeEnv [demoPausedTask] "t2").2.map
          (fun t => (t.status, t.executionCount, t.lastExecutedAt, t.nextRunAt)))
        = [(Status.active, 8, some 50, some 200)] := by
  decide

/-- The demo task as an active recurring webhook task. -/
def demoRecurringTask : TaskRow :=
  { demoTask with
      id := "t3"
      taskType := .recurring
      cronExpression := some "0 9 * * *"
      nextRunAt := some 100
      callbackType := "webhook"
      callbackConfig := ⟨some "https://example.com/hook", none, none⟩ }

/-- The demo task as an active one-shot webhook task. -/
def demoOneShotTask : TaskRow :=
  { demoTask with
      id := "t4"
      callbackType := "webhook"
      callbackConfig := ⟨some "https://example.com/hook", none, none⟩ }

/-- A dispatcher whose webhook send fails with HTTP 500. -/
def failDispatch : TaskRow → DispatchResult :=
  fun _ => ⟨false, some 500, none, some "HTTP 500"⟩

/-- Claim C2 is right and the code is wrong: on a dispatch returning
success false, executeTask records the execution as failed but then
advances the task exactly as on success — the recurring task gets the
freshly computed next_run_at (here 100 to 200) with current_retry_count
still 0 and status still active, and the one-shot task is marked
completed; the worker never touches current_retry_count or max_retries
and never sets status failed, although the schema carries those columns
and the tool surface documents the retries argument as the maximum
retry attempts when the callback fails. -/
theorem executeTask_ignores_retry_policy :
    ((executeTask failDispatch (fun _ _ => some 200) "e1" 50 60
        ⟨[demoRecurringTask], [], []⟩ demoRecurringTask).1.success = false)
      ∧ ((executeTask failDispatch (fun _ _ => some 200) "e1" 50 60
          ⟨[demoRecurringTask], [], []⟩ demoRecurringTask).2.tasks.map
            (fun t => (t.currentRetryCount, t.nextRunAt, t.status, t.lockedAt)))
        = [(0, some 200, Status.active, none)]
      ∧ ((executeTask failDispatch (fun _ _ => none) "e2" 50 60
          ⟨[demoOneShotTask], [], []⟩ demoOneShotTask).2.tasks.map
            (fun t => (t.status, t.currentRetryCount)))
        = [(Status.completed, 0)]
      ∧ ((executeTask failDispatch (fun _ _ => some 200) "e1" 50 60
          ⟨[demoRecurringTask], [], []⟩ demoRecurringTask).2.executions.map
            (fun e => e.status)) = ["failed"] := by
  decide

/-- A concrete registry with one throwing handler. -/
def demoHandlers : String → Option (Unit → Except String ToolResult) :=
  fun n => if n = "boom" then some (fun _ => .error "x") else none

/-- Witness for C10 at a concrete registry: the unknown-tool result and
the caught handler exception. -/
theorem executeTool_total_spec_witness :
    executeTool demoHandlers "nope" () = ⟨false, some "Unknown tool: nope"⟩
      ∧ executeTool demoHandlers "boom" () = ⟨false, some "Tool execution failed: x"⟩ :=
  ⟨(executeTool_total_spec Unit demoHandlers "nope" ()).1 (by rfl),
   (executeTool_total_spec Unit demoHandlers "boom" ()).2.1 (fun _ => .error "x") "x" (by rfl) rfl⟩

end Temporal
